import Mathlib

/-!
# Go-WebScrapper-x-Go-Cron: a shallow embedding of `main.go`

`webscrapper` visits a fixed list of quote pages with a colly collector,
collects one `Stock` per successfully parsed container, and writes the
collected records to `stocks.csv` through `encoding/csv`; `main` runs it
once per scheduler tick.

The embedding passes state explicitly.  The two libraries the program calls
are modelled by what the program observes of them:

* colly: `c.Visit(url)` on a default (synchronous) collector.  A URL already
  visited by this collector is rejected before any request is made (the
  returned error is discarded by the caller).  Otherwise the collector parses
  the argument, the `OnRequest` callback runs on the parsed URL, the request
  for that URL is made, and either the `OnError` callback runs (transport or
  HTTP error) or the `OnHTML` callback runs once for every element matched by
  its selector, in document order.  The parsed URL is printed and requested
  in its string form, in which `net/url` percent-escapes the path.  Redirect
  hops the HTTP client follows are part of fetching one request: they run no
  callback and are not events here.
* encoding/csv: `Writer.Write` with the default comma and `UseCRLF = false`;
  write errors (which the program discards) are not modelled, so `Flush`
  delivers everything written.

Console output and requests are recorded in one ordered trace of events.
-/

namespace WebScrapper

/-! ## Data model -/

/-- Quote record: `type Stock struct { company, price, change, change_value string }`. -/
structure Stock where
  company : String
  price : String
  change : String
  change_value : String
  deriving DecidableEq

/-- The hardcoded symbol list of `webscrapper` (lines 19-65). -/
def ticker : List String := [
  "PFE",
  "ALTM",
  "NQ=F",
  "GEV",
  "1211.HK",
  "ES=F",
  "MSTR",
  "BTC-USD",
  "ASML",
  "^VIX",
  "EH",
  "LGMK",
  "AMD",
  "LAC",
  "LYFT",
  "RIO",
  "IBRX",
  "BENF",
  "AAPL",
  "OKLO",
  "ASML.AS",
  "PEP",
  "SHOP",
  "IVZ",
  "ADTX",
  "CLSK",
  "TIGR",
  "RACE",
  "WIMI",
  "GBP/USD",
  "USD/JPY",
  "Bitcoin USD",
  "XRP USD",
  "FTSE 100",
  "Nikkei 225",
  "Silver",
  "Gold",
  "VIX",
  "10-Yr Bond",
  "EUR/USD",
  "Crude Oil",
  "Russell 2000 Futures",
  "Nasdaq Futures",
  "Dow Futures",
  "S&P Futures"]

/-! ## The environment of a run -/

/-- A matched `colly.HTMLElement`, as far as the handler reads it:
`ChildText sel` is the trimmed text of the descendants matching `sel`
(the empty string when nothing matches). -/
structure HTMLElement where
  ChildText : String → String

/-- A parsed HTML response: `find sel` lists the elements matched by the
selector `sel`, in document order. -/
structure Document where
  find : String → List HTMLElement

/-- Result of fetching one URL: a transport or HTTP error, or an HTML page. -/
inductive Response where
  | failure (err : String)
  | ok (doc : Document)

/-- Everything outside the program that one run depends on: `fetch url` is
the final outcome of the request made for the `Visit` argument `url`, and
`createErr` the error of `os.Create("stocks.csv")` if it fails. -/
structure World where
  fetch : String → Response
  createErr : Option String

/-- Observable events of a run, in program order: a request of the collector
(with its target), a line on standard output, a line of the logger, and the
fatal line of the logger. -/
inductive Event where
  | request (url : String)
  | println (line : String)
  | logln (line : String)
  | fatalln (line : String)
  deriving DecidableEq

/-- The variables a run mutates: the slice `stocks` captured by the handler,
the collector's visited-URL store, and the trace of events so far. -/
structure State where
  stocks : List Stock
  visited : List String
  trace : List Event

/-- State at lines 67-71: `stocks := []Stock{}` and a new collector. -/
def State.init : State := { stocks := [], visited := [], trace := [] }

/-! ## The URL a visit requests -/

/-- UTF-8 bytes of a character. -/
def utf8Bytes (c : Char) : List Nat :=
  let n := c.toNat
  if n < 0x80 then [n]
  else if n < 0x800 then [0xC0 + n / 64, 0x80 + n % 64]
  else if n < 0x10000 then [0xE0 + n / 4096, 0x80 + n / 64 % 64, 0x80 + n % 64]
  else [0xF0 + n / 262144, 0x80 + n / 4096 % 64, 0x80 + n / 64 % 64, 0x80 + n % 64]

/-- Go `net/url` `shouldEscape(c, encodePath)` on a byte: letters, digits,
the marks `- _ . ~` and the reserved `$ & + , / : ; = @` stay, everything
else (the question mark included) is escaped. -/
def shouldEscape (c : Nat) : Bool :=
  if (97 ≤ c ∧ c ≤ 122) ∨ (65 ≤ c ∧ c ≤ 90) ∨ (48 ≤ c ∧ c ≤ 57) then false
  else if c = 45 ∨ c = 95 ∨ c = 46 ∨ c = 126 then false
  else if c = 36 ∨ c = 38 ∨ c = 43 ∨ c = 44 ∨ c = 47 ∨ c = 58 ∨ c = 59 ∨ c = 61 ∨ c = 64 then
    false
  else true

/-- One byte test of Go `net/url` `validEncoded(s, encodePath)`: the
sub-delimiters, colon, at sign, square brackets and the percent sign pass,
any other byte passes when it needs no escape. -/
def validEncodedByte (c : Nat) : Bool :=
  if c = 33 ∨ c = 36 ∨ c = 38 ∨ c = 39 ∨ c = 40 ∨ c = 41 ∨ c = 42 ∨ c = 43 ∨ c = 44 ∨
      c = 59 ∨ c = 61 ∨ c = 58 ∨ c = 64 then true
  else if c = 91 ∨ c = 93 then true
  else if c = 37 then true
  else !shouldEscape c

/-- Go `net/url` `validEncoded(s, encodePath)`. -/
def validEncoded (s : String) : Bool :=
  s.data.all (fun c => (utf8Bytes c).all validEncodedByte)

/-- Upper-case hexadecimal digit, as in Go `upperhex`. -/
def upperhex (n : Nat) : Char :=
  if n < 10 then Char.ofNat (48 + n) else Char.ofNat (55 + n)

/-- One byte as Go `net/url` `escape(s, encodePath)` writes it. -/
def escapeByte (b : Nat) : List Char :=
  if shouldEscape b then [Char.ofNat 37, upperhex (b / 16), upperhex (b % 16)]
  else [Char.ofNat b]

/-- Go `net/url` `escape(s, encodePath)`. -/
def escape (s : String) : String :=
  String.mk (s.data.flatMap (fun c => (utf8Bytes c).flatMap escapeByte))

/-- String form of the URL the collector parses from a `Visit` argument
(`url.Parse(u).String()`): Go `EscapedPath` keeps a raw path that is a valid
encoding and escapes it otherwise.  The scheme and host of the program's
base contain no byte that is escaped, so the rule is applied to the whole
argument.  The query and fragment a question mark or a hash sign would
start, and the decoding of percent signs, are not modelled; no symbol of
the program contains one. -/
def parsedURL (url : String) : String :=
  if validEncoded url then url else escape url

/-! ## Callbacks and the visit loop -/

/-- Handler `c.OnRequest` (lines 74-76): `fmt.Println("Visiting:", r.URL)`,
where `url` is the string form of the parsed URL `r.URL` of the request. -/
def onRequest (s : State) (url : String) : State :=
  { s with trace := s.trace ++ [Event.println ("Visiting: " ++ url)] }

/-- Handler `c.OnError` (lines 79-81): `log.Println("Error:", err)`. -/
def onError (s : State) (err : String) : State :=
  { s with trace := s.trace ++ [Event.logln ("Error: " ++ err)] }

/-- Handler `c.OnHTML` (lines 84-97), run on one matched element. -/
def onHTML (s : State) (e : HTMLElement) : State :=
  let stock : Stock :=
    { company := e.ChildText "h1.yf-xxbei9"
      price := e.ChildText "fin-streamer[data-field='regularMarketPrice']"
      change := e.ChildText "fin-streamer[data-field='regularMarketChangePercent']"
      change_value := e.ChildText "fin-streamer[data-field='regularMarketChange']" }
  if stock.company ≠ "" ∧ stock.price ≠ "" then
    { s with stocks := s.stocks ++ [stock] }
  else
    { s with trace := s.trace ++ [Event.println "Failed to extract stock data"] }

/-- Call `c.Visit(url)` with the three callbacks registered at lines 74-97:
revisit check, `OnRequest` on the parsed URL, the request for that URL, then
`OnError` or `OnHTML`.  The visited store is kept by argument; colly keys it
by the parsed URL, which is distinct for distinct symbols of the program
(`ticker_targets_nodup`). -/
def Visit (w : World) (s : State) (url : String) : State :=
  if url ∈ s.visited then s
  else
    let target := parsedURL url
    let s1 : State := { s with visited := s.visited ++ [url] }
    let s2 := onRequest s1 target
    let s3 : State := { s2 with trace := s2.trace ++ [Event.request target] }
    match w.fetch url with
    | Response.failure err => onError s3 err
    | Response.ok doc => (doc.find "section.container.yf-1s1umie").foldl onHTML s3

/-- Loop at lines 100-102, started from an arbitrary state. -/
def visitFrom (w : World) (s : State) (ticker : List String) : State :=
  ticker.foldl (fun st t => Visit w st ("https://finance.yahoo.com/quote/" ++ t ++ "/")) s

/-- Lines 67-105: fresh record list and collector, then the visit loop
(`c.Wait()` returns at once on a synchronous collector). -/
def visitAll (w : World) (ticker : List String) : State :=
  visitFrom w State.init ticker

/-! ## CSV export -/

/-- Go `unicode.IsSpace`. -/
def isSpace (c : Char) : Bool :=
  let n := c.toNat
  (9 ≤ n ∧ n ≤ 13) ∨ n = 32 ∨ n = 0x85 ∨ n = 0xA0 ∨ n = 0x1680 ∨
  (0x2000 ≤ n ∧ n ≤ 0x200A) ∨ n = 0x2028 ∨ n = 0x2029 ∨ n = 0x202F ∨
  n = 0x205F ∨ n = 0x3000

/-- Go `(*csv.Writer).fieldNeedsQuotes` with `Comma = ','`. -/
def fieldNeedsQuotes (field : String) : Bool :=
  if field = "" then false
  else if field = "\\." then true
  else if field.data.any (fun c => c.toNat = 10 ∨ c.toNat = 13 ∨ c.toNat = 34 ∨ c.toNat = 44) then true
  else
    match field.data with
    | [] => false
    | r1 :: _ => isSpace r1

/-- Quoted form of a field: every double quote is doubled, and with
`UseCRLF = false` carriage returns and line feeds are copied as they are. -/
def quoteField (field : String) : String :=
  "\"" ++ String.mk (field.data.flatMap (fun c => if c.toNat = 34 then [c, c] else [c])) ++ "\""

/-- One field as `Write` emits it. -/
def writeField (field : String) : String :=
  if fieldNeedsQuotes field then quoteField field else field

/-- The line `Write` emits for a record: fields separated by commas, then a line feed. -/
def encodeRecord (record : List String) : String :=
  String.intercalate "," (record.map writeField) ++ "\n"

/-- A `csv.Writer`: the text written through it so far. -/
structure Writer where
  buf : String

/-- Go `csv.NewWriter(file)` on the freshly truncated file. -/
def NewWriter : Writer := { buf := "" }

/-- Go `(*csv.Writer).Write`. -/
def Writer.Write (wr : Writer) (record : List String) : Writer :=
  { buf := wr.buf ++ encodeRecord record }

/-- Go `(*csv.Writer).Flush`: the file content once the buffer is flushed. -/
def Writer.Flush (wr : Writer) : String := wr.buf

/-- Lines 113-121: header, one row per collected record, flush. -/
def exportCSV (stocks : List Stock) : String :=
  let writer := NewWriter
  let headers := ["Company", "Price", "Change", "Change-Value"]
  let writer := writer.Write headers
  let writer := stocks.foldl
    (fun wr stock => wr.Write [stock.company, stock.price, stock.change, stock.change_value])
    writer
  writer.Flush

/-! ## A run and the scheduler -/

/-- How a run ends: it returns to the scheduler, or `log.Fatalln` exits the process. -/
inductive Exit where
  | returned
  | fatal
  deriving DecidableEq

/-- Result of a run: how it ended, the content of `stocks.csv` afterwards
(`none` when the file does not exist) and the events it produced. -/
structure Outcome where
  exit : Exit
  file : Option String
  trace : List Event

/-- The body of `webscrapper` over a given symbol list; `file` is the content
of `stocks.csv` before the run. -/
def webscrapperOn (ticker : List String) (w : World) (file : Option String) : Outcome :=
  let s := visitAll w ticker
  match w.createErr with
  | some err =>
    { exit := Exit.fatal
      file := file
      trace := s.trace ++ [Event.fatalln ("Failed to create CSV file " ++ err)] }
  | none =>
    { exit := Exit.returned
      file := some (exportCSV s.stocks)
      trace := s.trace }

/-- The function `webscrapper` (lines 18-122). -/
def webscrapper (w : World) (file : Option String) : Outcome :=
  webscrapperOn ticker w file

/-- The function `main`: one `webscrapper` run per scheduler tick, one after
the other, each tick with its own world; a fatal run ends the process. -/
def main : List World → Option String → Outcome
  | [], file => { exit := Exit.returned, file := file, trace := [] }
  | w :: ticks, file =>
    let o := webscrapper w file
    match o.exit with
    | Exit.fatal => o
    | Exit.returned =>
      let rest := main ticks o.file
      { rest with trace := o.trace ++ rest.trace }

/-! ## Vocabulary for the statements -/

/-- The string built at line 101 for the symbol `t` and handed to `c.Visit`. -/
def quoteURL (t : String) : String := "https://finance.yahoo.com/quote/" ++ t ++ "/"

/-- The targets of the requests recorded in a trace, in order. -/
def requestsOf (tr : List Event) : List String :=
  tr.filterMap (fun ev => match ev with
    | Event.request url => some url
    | _ => none)

/-- The four fields of a record in the order of line 118. -/
def Stock.row (s : Stock) : List String := [s.company, s.price, s.change, s.change_value]

/-- Concatenation of a list of text lines. -/
def concatLines : List String → String
  | [] => ""
  | l :: ls => l ++ concatLines ls

/-- An element whose four field selectors yield the given texts. -/
def element (company price change change_value : String) : HTMLElement :=
  { ChildText := fun sel =>
      if sel = "h1.yf-xxbei9" then company
      else if sel = "fin-streamer[data-field='regularMarketPrice']" then price
      else if sel = "fin-streamer[data-field='regularMarketChangePercent']" then change
      else if sel = "fin-streamer[data-field='regularMarketChange']" then change_value
      else "" }

/-- A page whose container selector matches exactly the given elements. -/
def page (es : List HTMLElement) : Document :=
  { find := fun sel => if sel = "section.container.yf-1s1umie" then es else [] }


/-- The record the handler builds from a matched element (lines 85-89). -/
def extract (e : HTMLElement) : Stock :=
  { company := e.ChildText "h1.yf-xxbei9"
    price := e.ChildText "fin-streamer[data-field='regularMarketPrice']"
    change := e.ChildText "fin-streamer[data-field='regularMarketChangePercent']"
    change_value := e.ChildText "fin-streamer[data-field='regularMarketChange']" }

/-- The test of line 92 on a matched element. -/
def complete (e : HTMLElement) : Bool :=
  decide ((extract e).company ≠ "" ∧ (extract e).price ≠ "")

/-- Records appended while handling the matched elements `es` in order. -/
def handled (es : List HTMLElement) : List Stock :=
  (es.filter complete).map extract

/-- Failure lines printed while handling the matched elements `es`. -/
def failures (es : List HTMLElement) : List Event :=
  (es.filter (fun e => !complete e)).map (fun _ => Event.println "Failed to extract stock data")

/-- Records a fresh visit of `url` appends. -/
def recordsAt (w : World) (url : String) : List Stock :=
  match w.fetch url with
  | Response.failure _ => []
  | Response.ok doc => handled (doc.find "section.container.yf-1s1umie")

/-- Events a fresh visit of `url` produces. -/
def eventsAt (w : World) (url : String) : List Event :=
  [Event.println ("Visiting: " ++ parsedURL url), Event.request (parsedURL url)] ++
    match w.fetch url with
    | Response.failure err => [Event.logln ("Error: " ++ err)]
    | Response.ok doc => failures (doc.find "section.container.yf-1s1umie")

/-! ## Sample worlds -/

/-- A world for the end-to-end scenario: the AAPL page carries the four
texts, every other page has a container without a price; the file can be created. -/
def scenarioWorld : World :=
  { fetch := fun url =>
      if url = "https://finance.yahoo.com/quote/AAPL/" then
        Response.ok (page [element "Apple Inc." "150.00" "1.2%" "+1.80"])
      else Response.ok (page [element "Fake Corp" "" "" ""])
    createErr := none }

/-- A world in which no page has a matching container. -/
def bareWorld : World :=
  { fetch := fun _ => Response.ok (page [])
    createErr := none }

/-- A world in which every request fails; the file can be created. -/
def offlineWorld : World :=
  { fetch := fun _ => Response.failure "Get: dial tcp: i/o timeout"
    createErr := none }

/-- A world whose pages have no matching container and whose output
directory is not writable. -/
def lockedWorld : World :=
  { fetch := fun _ => Response.ok (page [])
    createErr := some "open stocks.csv: permission denied" }

set_option maxRecDepth 100000

/-! ## Lemmas on the visit loop -/

theorem onHTML_complete (s : State) (e : HTMLElement) (h : complete e = true) :
    onHTML s e = { s with stocks := s.stocks ++ [extract e] } := by
  have h2 : (extract e).company ≠ "" ∧ (extract e).price ≠ "" := by
    simpa [complete] using h
  have h3 : onHTML s e =
      if (extract e).company ≠ "" ∧ (extract e).price ≠ "" then
        { s with stocks := s.stocks ++ [extract e] }
      else { s with trace := s.trace ++ [Event.println "Failed to extract stock data"] } := rfl
  rw [h3, if_pos h2]

theorem onHTML_incomplete (s : State) (e : HTMLElement) (h : complete e = false) :
    onHTML s e =
      { s with trace := s.trace ++ [Event.println "Failed to extract stock data"] } := by
  have h2 : ¬ ((extract e).company ≠ "" ∧ (extract e).price ≠ "") := by
    intro hc
    have : complete e = true := by simpa [complete] using hc
    rw [h] at this
    exact Bool.noConfusion this
  have h3 : onHTML s e =
      if (extract e).company ≠ "" ∧ (extract e).price ≠ "" then
        { s with stocks := s.stocks ++ [extract e] }
      else { s with trace := s.trace ++ [Event.println "Failed to extract stock data"] } := rfl
  rw [h3, if_neg h2]

theorem foldl_onHTML (es : List HTMLElement) (s : State) :
    es.foldl onHTML s =
      { stocks := s.stocks ++ handled es
        visited := s.visited
        trace := s.trace ++ failures es } := by
  induction es generalizing s with
  | nil => simp [handled, failures]
  | cons e es ih =>
    rw [List.foldl_cons, ih]
    cases h : complete e
    · rw [onHTML_incomplete s e h]
      simp [handled, failures, h]
    · rw [onHTML_complete s e h]
      simp [handled, failures, h]

theorem Visit_fresh (w : World) (s : State) (url : String) (h : url ∉ s.visited) :
    Visit w s url =
      { stocks := s.stocks ++ recordsAt w url
        visited := s.visited ++ [url]
        trace := s.trace ++ eventsAt w url } := by
  unfold Visit
  rw [if_neg h]
  simp only [recordsAt, eventsAt]
  cases w.fetch url with
  | failure err => simp [onError, onRequest]
  | ok doc => simp [foldl_onHTML, onRequest]

theorem quoteURL_injective (a b : String) (h : quoteURL a = quoteURL b) : a = b := by
  have h2 := congrArg String.data h
  simp only [quoteURL, String.data_append, List.append_assoc] at h2
  have h3 := List.append_cancel_left h2
  have h4 := List.append_cancel_right h3
  exact String.ext h4

theorem visitFrom_fresh (w : World) (l : List String) :
    ∀ s : State, l.Nodup → (∀ t ∈ l, quoteURL t ∉ s.visited) →
      visitFrom w s l =
        { stocks := s.stocks ++ l.flatMap (fun t => recordsAt w (quoteURL t))
          visited := s.visited ++ l.map quoteURL
          trace := s.trace ++ l.flatMap (fun t => eventsAt w (quoteURL t)) } := by
  induction l with
  | nil => intro s _ _; simp [visitFrom]
  | cons t l ih =>
    intro s hnd hfresh
    have ht : quoteURL t ∉ s.visited := hfresh t (List.mem_cons_self t l)
    have hstep : visitFrom w s (t :: l) = visitFrom w (Visit w s (quoteURL t)) l := rfl
    rw [hstep, Visit_fresh w s (quoteURL t) ht]
    rw [List.nodup_cons] at hnd
    rw [ih _ hnd.2]
    · simp
    · intro u hu
      simp only [List.mem_append, List.mem_singleton, not_or]
      refine ⟨hfresh u (List.mem_cons_of_mem t hu), ?_⟩
      intro hq
      have : u = t := quoteURL_injective u t hq
      rw [this] at hu
      exact hnd.1 hu

theorem visitAll_eq (w : World) (l : List String) (hnd : l.Nodup) :
    visitAll w l =
      { stocks := l.flatMap (fun t => recordsAt w (quoteURL t))
        visited := l.map quoteURL
        trace := l.flatMap (fun t => eventsAt w (quoteURL t)) } := by
  unfold visitAll
  rw [visitFrom_fresh w l State.init hnd (by intro t _; simp [State.init])]
  simp [State.init]

/-! ## Lemmas on the export -/

theorem foldl_Write (stocks : List Stock) (wr : Writer) :
    (stocks.foldl
      (fun wr stock => wr.Write [stock.company, stock.price, stock.change, stock.change_value])
      wr).buf = wr.buf ++ concatLines (stocks.map (fun s => encodeRecord s.row)) := by
  induction stocks generalizing wr with
  | nil => simp [concatLines]
  | cons st stocks ih =>
    rw [List.foldl_cons, ih]
    simp [Writer.Write, concatLines, Stock.row, String.append_assoc]

theorem exportCSV_eq (stocks : List Stock) :
    exportCSV stocks =
      encodeRecord ["Company", "Price", "Change", "Change-Value"] ++
        concatLines (stocks.map (fun s => encodeRecord s.row)) := by
  unfold exportCSV
  simp only [Writer.Flush]
  rw [foldl_Write]
  simp [NewWriter, Writer.Write]

theorem header_line :
    encodeRecord ["Company", "Price", "Change", "Change-Value"] =
      "Company,Price,Change,Change-Value\n" := by
  decide

/-! ## Lemmas on traces and on pages without a complete container -/

theorem requestsOf_append (a b : List Event) :
    requestsOf (a ++ b) = requestsOf a ++ requestsOf b := by
  simp [requestsOf, List.filterMap_append]

theorem requestsOf_failures (es : List HTMLElement) : requestsOf (failures es) = [] := by
  simp [requestsOf, failures]

theorem requestsOf_eventsAt (w : World) (url : String) :
    requestsOf (eventsAt w url) = [parsedURL url] := by
  unfold eventsAt
  rw [requestsOf_append]
  cases w.fetch url with
  | failure err => simp [requestsOf]
  | ok doc =>
    simp only [requestsOf_failures]
    simp [requestsOf]

theorem requestsOf_visits (w : World) (l : List String) :
    requestsOf (l.flatMap (fun t => eventsAt w (quoteURL t))) =
      l.map (fun t => parsedURL (quoteURL t)) := by
  induction l with
  | nil => rfl
  | cons t l ih =>
    rw [List.flatMap_cons, requestsOf_append, requestsOf_eventsAt, ih]
    rfl

theorem complete_false_of_lack (e : HTMLElement)
    (h : e.ChildText "h1.yf-xxbei9" = "" ∨
      e.ChildText "fin-streamer[data-field='regularMarketPrice']" = "") :
    complete e = false := by
  unfold complete
  apply decide_eq_false
  intro hc
  rcases h with h | h
  · exact hc.1 h
  · exact hc.2 h

theorem handled_of_lack (es : List HTMLElement)
    (h : ∀ e ∈ es, e.ChildText "h1.yf-xxbei9" = "" ∨
      e.ChildText "fin-streamer[data-field='regularMarketPrice']" = "") :
    handled es = [] ∧
      failures es = List.replicate es.length (Event.println "Failed to extract stock data") := by
  induction es with
  | nil => exact ⟨rfl, rfl⟩
  | cons e es ih =>
    have he := complete_false_of_lack e (h e (List.mem_cons_self e es))
    have ih2 := ih (fun x hx => h x (List.mem_cons_of_mem e hx))
    constructor
    · simpa [handled, he] using ih2.1
    · have h2 := ih2.2
      simp only [failures] at h2
      simp [failures, he, h2, List.replicate_succ]

theorem nodup_without_middle (pre post : List String) (t : String)
    (h : (pre ++ t :: post).Nodup) : (pre ++ post).Nodup :=
  (List.nodup_cons.mp (List.nodup_middle.mp h)).2

theorem recordsAt_of_failure (w : World) (url err : String)
    (h : w.fetch url = Response.failure err) : recordsAt w url = [] := by
  unfold recordsAt
  rw [h]

theorem records_nil_of_all_fail (w : World) (l : List String)
    (h : ∀ u ∈ l, ∃ err, w.fetch ("https://finance.yahoo.com/quote/" ++ u ++ "/") =
      Response.failure err) :
    l.flatMap (fun t => recordsAt w (quoteURL t)) = [] := by
  induction l with
  | nil => rfl
  | cons t l ih =>
    obtain ⟨err, herr⟩ := h t (List.mem_cons_self t l)
    rw [List.flatMap_cons, ih (fun u hu => h u (List.mem_cons_of_mem t hu))]
    rw [recordsAt_of_failure w (quoteURL t) err herr]
    rfl

theorem Visit_stocks_extend (w : World) (s : State) (url : String) :
    ∃ added, (Visit w s url).stocks = s.stocks ++ added := by
  by_cases h : url ∈ s.visited
  · refine ⟨[], ?_⟩
    unfold Visit
    rw [if_pos h]
    simp
  · exact ⟨recordsAt w url, by rw [Visit_fresh w s url h]⟩

theorem visitFrom_stocks_extend (w : World) (l : List String) :
    ∀ s : State, ∃ added, (visitFrom w s l).stocks = s.stocks ++ added := by
  induction l with
  | nil => intro s; exact ⟨[], by simp [visitFrom]⟩
  | cons t l ih =>
    intro s
    have hstep : visitFrom w s (t :: l) = visitFrom w (Visit w s (quoteURL t)) l := rfl
    obtain ⟨a, ha⟩ := Visit_stocks_extend w s (quoteURL t)
    obtain ⟨b, hb⟩ := ih (Visit w s (quoteURL t))
    exact ⟨a ++ b, by rw [hstep, hb, ha, List.append_assoc]⟩

theorem ticker_nodup : ticker.Nodup := by
  decide

theorem ticker_targets_nodup :
    (ticker.map (fun t => parsedURL ("https://finance.yahoo.com/quote/" ++ t ++ "/"))).Nodup := by
  decide

theorem webscrapperOn_created (l : List String) (w : World) (prev : Option String)
    (h : w.createErr = none) :
    webscrapperOn l w prev =
      { exit := Exit.returned
        file := some (exportCSV (visitAll w l).stocks)
        trace := (visitAll w l).trace } := by
  unfold webscrapperOn
  simp only [h]

theorem webscrapperOn_fatal (l : List String) (w : World) (prev : Option String) (err : String)
    (h : w.createErr = some err) :
    webscrapperOn l w prev =
      { exit := Exit.fatal
        file := prev
        trace := (visitAll w l).trace ++ [Event.fatalln ("Failed to create CSV file " ++ err)] } := by
  unfold webscrapperOn
  simp only [h]

theorem webscrapper_created (w : World) (prev : Option String) (h : w.createErr = none) :
    webscrapper w prev =
      { exit := Exit.returned
        file := some (exportCSV (visitAll w ticker).stocks)
        trace := (visitAll w ticker).trace } :=
  webscrapperOn_created ticker w prev h

theorem webscrapper_fatal (w : World) (prev : Option String) (err : String)
    (h : w.createErr = some err) :
    webscrapper w prev =
      { exit := Exit.fatal
        file := prev
        trace := (visitAll w ticker).trace ++
          [Event.fatalln ("Failed to create CSV file " ++ err)] } :=
  webscrapperOn_fatal ticker w prev err h

theorem main_cons_file (w : World) (ticks : List World) (prev : Option String)
    (h : w.createErr = none) :
    (main (w :: ticks) prev).file =
      (main ticks (some (exportCSV (visitAll w ticker).stocks))).file := by
  rw [main]
  simp only [webscrapper_created w prev h]

theorem main_cons_fatal (w : World) (ticks : List World) (prev : Option String) (err : String)
    (h : w.createErr = some err) :
    main (w :: ticks) prev = webscrapper w prev := by
  rw [main]
  simp only [webscrapper_fatal w prev err h]

theorem requestsOf_visitAll (w : World) (l : List String) (hnd : l.Nodup) :
    requestsOf (visitAll w l).trace =
      l.map (fun t => parsedURL ("https://finance.yahoo.com/quote/" ++ t ++ "/")) := by
  rw [visitAll_eq w l hnd]
  exact requestsOf_visits w l

theorem requestsOf_webscrapperOn (w : World) (l : List String) (prev : Option String)
    (hnd : l.Nodup) :
    requestsOf (webscrapperOn l w prev).trace =
      l.map (fun t => parsedURL ("https://finance.yahoo.com/quote/" ++ t ++ "/")) := by
  cases h : w.createErr with
  | none => rw [webscrapperOn_created l w prev h]; exact requestsOf_visitAll w l hnd
  | some err =>
    rw [webscrapperOn_fatal l w prev err h]
    simp only [requestsOf_append, requestsOf_visitAll w l hnd]
    simp [requestsOf]

/-! ## The handler (C10) -/

/-- C10: for every four extracted texts the handler appends a record exactly
when company and price are both non-empty, whatever change and change value
are; the appended record holds the four texts unchanged, and otherwise the
collected list is left as it was. -/
theorem C10_handler_appends_iff_company_and_price (s : State) (e : HTMLElement)
    (company price change change_value : String)
    (hcompany : e.ChildText "h1.yf-xxbei9" = company)
    (hprice : e.ChildText "fin-streamer[data-field='regularMarketPrice']" = price)
    (hchange : e.ChildText "fin-streamer[data-field='regularMarketChangePercent']" = change)
    (hvalue : e.ChildText "fin-streamer[data-field='regularMarketChange']" = change_value) :
    ((onHTML s e).stocks =
        s.stocks ++ [{ company := company, price := price, change := change,
                       change_value := change_value }]
      ↔ (company ≠ "" ∧ price ≠ "")) ∧
    ((onHTML s e).stocks = s.stocks ↔ ¬ (company ≠ "" ∧ price ≠ "")) := by
  have hex : extract e = Stock.mk company price change change_value := by
    simp [extract, hcompany, hprice, hchange, hvalue]
  cases h : complete e
  · have hn : ¬ (company ≠ "" ∧ price ≠ "") := by
      intro hc
      have : complete e = true := by
        simp only [complete, hex]
        exact decide_eq_true hc
      rw [h] at this
      exact Bool.noConfusion this
    rw [onHTML_incomplete s e h]
    constructor
    · constructor
      · intro heq
        have := congrArg List.length heq
        simp at this
      · intro hc
        exact absurd hc hn
    · constructor
      · intro _
        exact hn
      · intro _
        rfl
  · have hy : company ≠ "" ∧ price ≠ "" := by
      have h2 := h
      simp only [complete, hex] at h2
      exact of_decide_eq_true h2
    rw [onHTML_complete s e h, hex]
    constructor
    · constructor
      · intro _
        exact hy
      · intro _
        rfl
    · constructor
      · intro heq
        have := congrArg List.length heq
        simp at this
      · intro hn
        exact absurd hy hn

/-- C10 at a state holding one record and an element with empty change texts. -/
theorem C10_handler_appends_iff_company_and_price_witness :
    ((onHTML { stocks := [{ company := "A", price := "1", change := "", change_value := "" }],
               visited := [], trace := [] }
        (element "Apple Inc." "150.00" "" "")).stocks =
        [{ company := "A", price := "1", change := "", change_value := "" }] ++
          [{ company := "Apple Inc.", price := "150.00", change := "", change_value := "" }]
      ↔ (("Apple Inc." : String) ≠ "" ∧ ("150.00" : String) ≠ "")) ∧
    ((onHTML { stocks := [{ company := "A", price := "1", change := "", change_value := "" }],
               visited := [], trace := [] }
        (element "Apple Inc." "150.00" "" "")).stocks =
        [{ company := "A", price := "1", change := "", change_value := "" }]
      ↔ ¬ (("Apple Inc." : String) ≠ "" ∧ ("150.00" : String) ≠ "")) :=
  C10_handler_appends_iff_company_and_price
    { stocks := [{ company := "A", price := "1", change := "", change_value := "" }],
      visited := [], trace := [] }
    (element "Apple Inc." "150.00" "" "") "Apple Inc." "150.00" "" ""
    (by decide) (by decide) (by decide) (by decide)

/-! ## Records collected per symbol (C1, C2) -/

/-- C1: in a run over distinct symbols, a symbol whose page has exactly one
matched container with a non-empty company label and a non-empty price
contributes exactly one record: the collected list is the records of the
symbols before it, then that record, then the records of the symbols after
it, and the record has both fields non-empty. -/
theorem C1_one_record_for_complete_page (w : World) (pre post : List String) (t : String)
    (doc : Document) (e : HTMLElement)
    (hnd : (pre ++ t :: post).Nodup)
    (hfetch : w.fetch ("https://finance.yahoo.com/quote/" ++ t ++ "/") = Response.ok doc)
    (hone : doc.find "section.container.yf-1s1umie" = [e])
    (hcompany : e.ChildText "h1.yf-xxbei9" ≠ "")
    (hprice : e.ChildText "fin-streamer[data-field='regularMarketPrice']" ≠ "") :
    (visitAll w (pre ++ t :: post)).stocks =
        (visitAll w pre).stocks ++ [extract e] ++ (visitAll w post).stocks ∧
      (visitAll w (pre ++ post)).stocks = (visitAll w pre).stocks ++ (visitAll w post).stocks ∧
      (extract e).company ≠ "" ∧ (extract e).price ≠ "" := by
  have hpre : pre.Nodup := (List.nodup_append.mp hnd).1
  have hpost : post.Nodup := (List.nodup_cons.mp (List.nodup_append.mp hnd).2.1).2
  have hpp : (pre ++ post).Nodup := by
    have h := hnd
    rw [List.nodup_append] at h ⊢
    refine ⟨h.1, hpost, ?_⟩
    intro a ha hb
    exact h.2.2 ha (List.mem_cons_of_mem t hb)
  have hc : complete e = true := by
    unfold complete
    exact decide_eq_true ⟨hcompany, hprice⟩
  have hrec : recordsAt w (quoteURL t) = [extract e] := by
    unfold recordsAt quoteURL
    rw [hfetch]
    simp [hone, handled, hc]
  rw [visitAll_eq w _ hnd, visitAll_eq w _ hpre, visitAll_eq w _ hpost, visitAll_eq w _ hpp]
  simp only [List.flatMap_append, List.flatMap_cons, hrec]
  refine ⟨by simp, trivial, hcompany, hprice⟩

/-- C1 at the end-to-end world: AAPL is complete and followed by FAKE1. -/
theorem C1_one_record_for_complete_page_witness :
    (visitAll scenarioWorld ["AAPL", "FAKE1"]).stocks =
        (visitAll scenarioWorld []).stocks ++
          [extract (element "Apple Inc." "150.00" "1.2%" "+1.80")] ++
          (visitAll scenarioWorld ["FAKE1"]).stocks ∧
      (visitAll scenarioWorld ([] ++ ["FAKE1"])).stocks =
        (visitAll scenarioWorld []).stocks ++ (visitAll scenarioWorld ["FAKE1"]).stocks ∧
      (extract (element "Apple Inc." "150.00" "1.2%" "+1.80")).company ≠ "" ∧
      (extract (element "Apple Inc." "150.00" "1.2%" "+1.80")).price ≠ "" :=
  C1_one_record_for_complete_page scenarioWorld [] ["FAKE1"] "AAPL"
    (page [element "Apple Inc." "150.00" "1.2%" "+1.80"])
    (element "Apple Inc." "150.00" "1.2%" "+1.80")
    (by decide) rfl rfl (by decide) (by decide)

/-- C2, as stated, fails: when no container of the page matches, the response
lacks both the company label and the price, no record is added, and the run
prints no extraction-failure message. -/
theorem C2_no_container_no_failure_message :
    bareWorld.fetch "https://finance.yahoo.com/quote/AAPL/" = Response.ok (page []) ∧
    "AAPL" ∈ ticker ∧
    (∀ e ∈ (page []).find "section.container.yf-1s1umie",
      e.ChildText "h1.yf-xxbei9" = "" ∨
        e.ChildText "fin-streamer[data-field='regularMarketPrice']" = "") ∧
    (visitAll bareWorld ticker).stocks = [] ∧
    ¬ (Event.println "Failed to extract stock data" ∈ (webscrapper bareWorld none).trace) := by
  refine ⟨rfl, by decide, ?_, by decide, by decide⟩
  intro e he
  simp [page] at he

/-- C2, amended: in a run over distinct symbols, a symbol whose page has no
matched container with both a company label and a price contributes no
record, and the extraction-failure message is printed once for each matched
container of the page, right after the visiting line and the request of that
symbol (so not at all when no container matches). -/
theorem C2_incomplete_page_no_record_and_message_per_container (w : World)
    (pre post : List String) (t : String) (doc : Document)
    (hnd : (pre ++ t :: post).Nodup)
    (hfetch : w.fetch ("https://finance.yahoo.com/quote/" ++ t ++ "/") = Response.ok doc)
    (hlack : ∀ e ∈ doc.find "section.container.yf-1s1umie",
      e.ChildText "h1.yf-xxbei9" = "" ∨
        e.ChildText "fin-streamer[data-field='regularMarketPrice']" = "") :
    (visitAll w (pre ++ t :: post)).stocks =
        (visitAll w pre).stocks ++ (visitAll w post).stocks ∧
      (visitAll w (pre ++ t :: post)).trace =
        (visitAll w pre).trace ++
          ([Event.println
              ("Visiting: " ++ parsedURL ("https://finance.yahoo.com/quote/" ++ t ++ "/")),
            Event.request (parsedURL ("https://finance.yahoo.com/quote/" ++ t ++ "/"))] ++
            List.replicate (doc.find "section.container.yf-1s1umie").length
              (Event.println "Failed to extract stock data")) ++
          (visitAll w post).trace := by
  have hpre : pre.Nodup := (List.nodup_append.mp hnd).1
  have hpost : post.Nodup := (List.nodup_cons.mp (List.nodup_append.mp hnd).2.1).2
  have hl := handled_of_lack _ hlack
  have hrec : recordsAt w (quoteURL t) = [] := by
    unfold recordsAt quoteURL
    rw [hfetch]
    exact hl.1
  have hev : eventsAt w (quoteURL t) =
      [Event.println
          ("Visiting: " ++ parsedURL ("https://finance.yahoo.com/quote/" ++ t ++ "/")),
        Event.request (parsedURL ("https://finance.yahoo.com/quote/" ++ t ++ "/"))] ++
        List.replicate (doc.find "section.container.yf-1s1umie").length
          (Event.println "Failed to extract stock data") := by
    unfold eventsAt quoteURL
    rw [hfetch]
    simp only [hl.2]
  rw [visitAll_eq w _ hnd, visitAll_eq w _ hpre, visitAll_eq w _ hpost]
  simp only [List.flatMap_append, List.flatMap_cons, hrec, hev]
  simp

/-- C2 amended, at the end-to-end world: FAKE1 has one container without a price. -/
theorem C2_incomplete_page_no_record_and_message_per_container_witness :
    (visitAll scenarioWorld ["AAPL", "FAKE1"]).stocks =
        (visitAll scenarioWorld ["AAPL"]).stocks ++ (visitAll scenarioWorld []).stocks ∧
      (visitAll scenarioWorld ["AAPL", "FAKE1"]).trace =
        (visitAll scenarioWorld ["AAPL"]).trace ++
          ([Event.println "Visiting: https://finance.yahoo.com/quote/FAKE1/",
            Event.request "https://finance.yahoo.com/quote/FAKE1/"] ++
            List.replicate 1 (Event.println "Failed to extract stock data")) ++
          (visitAll scenarioWorld []).trace :=
  C2_incomplete_page_no_record_and_message_per_container scenarioWorld ["AAPL"] [] "FAKE1"
    (page [element "Fake Corp" "" "" ""])
    (by decide) rfl (by decide)

/-! ## The exported file (C3, C4, C5, C6) -/

/-- C3: for a run over AAPL and FAKE1 where the AAPL page yields company
"Apple Inc.", price "150.00", change "1.2%" and change value "+1.80", and
the FAKE1 page has no price, the exported file is exactly the header line
followed by the line "Apple Inc.,150.00,1.2%,+1.80". -/
theorem C3_end_to_end_two_lines (w : World) (prev : Option String) (d1 d2 : Document)
    (e1 : HTMLElement)
    (hcreate : w.createErr = none)
    (h1 : w.fetch "https://finance.yahoo.com/quote/AAPL/" = Response.ok d1)
    (h1e : d1.find "section.container.yf-1s1umie" = [e1])
    (hcompany : e1.ChildText "h1.yf-xxbei9" = "Apple Inc.")
    (hprice : e1.ChildText "fin-streamer[data-field='regularMarketPrice']" = "150.00")
    (hchange : e1.ChildText "fin-streamer[data-field='regularMarketChangePercent']" = "1.2%")
    (hvalue : e1.ChildText "fin-streamer[data-field='regularMarketChange']" = "+1.80")
    (h2 : w.fetch "https://finance.yahoo.com/quote/FAKE1/" = Response.ok d2)
    (h2e : ∀ e ∈ d2.find "section.container.yf-1s1umie",
      e.ChildText "fin-streamer[data-field='regularMarketPrice']" = "") :
    (webscrapperOn ["AAPL", "FAKE1"] w prev).file =
      some "Company,Price,Change,Change-Value\nApple Inc.,150.00,1.2%,+1.80\n" := by
  have hex : extract e1 = Stock.mk "Apple Inc." "150.00" "1.2%" "+1.80" := by
    simp [extract, hcompany, hprice, hchange, hvalue]
  have hc : complete e1 = true := by
    simp only [complete, hex]
    decide
  have u1 : quoteURL "AAPL" = "https://finance.yahoo.com/quote/AAPL/" := by decide
  have u2 : quoteURL "FAKE1" = "https://finance.yahoo.com/quote/FAKE1/" := by decide
  have r1 : recordsAt w (quoteURL "AAPL") = [Stock.mk "Apple Inc." "150.00" "1.2%" "+1.80"] := by
    rw [u1]
    unfold recordsAt
    rw [h1]
    simp [h1e, handled, hc, hex]
  have r2 : recordsAt w (quoteURL "FAKE1") = [] := by
    rw [u2]
    unfold recordsAt
    rw [h2]
    exact (handled_of_lack _ (fun e he => Or.inr (h2e e he))).1
  rw [webscrapperOn_created _ w prev hcreate, visitAll_eq w _ (by decide)]
  simp only [List.flatMap_cons, List.flatMap_nil, r1, r2, List.append_nil]
  decide

/-- C3 at the end-to-end world. -/
theorem C3_end_to_end_two_lines_witness :
    (webscrapperOn ["AAPL", "FAKE1"] scenarioWorld none).file =
      some "Company,Price,Change,Change-Value\nApple Inc.,150.00,1.2%,+1.80\n" :=
  C3_end_to_end_two_lines scenarioWorld none
    (page [element "Apple Inc." "150.00" "1.2%" "+1.80"]) (page [element "Fake Corp" "" "" ""])
    (element "Apple Inc." "150.00" "1.2%" "+1.80")
    rfl rfl rfl (by decide) (by decide) (by decide) (by decide) rfl (by decide)

/-- C4: for every list of collected records, the empty list included, the
export starts with the header row of the four columns Company, Price,
Change, Change-Value, in that order; and whenever the output file is created
by a run, this export is its content, so its first row is that header. -/
theorem C4_header_row_first (w : World) (prev : Option String) (stocks : List Stock)
    (hcreate : w.createErr = none) :
    exportCSV stocks =
        encodeRecord ["Company", "Price", "Change", "Change-Value"] ++
          concatLines (stocks.map (fun s => encodeRecord s.row)) ∧
      encodeRecord ["Company", "Price", "Change", "Change-Value"] =
        "Company,Price,Change,Change-Value\n" ∧
      exportCSV [] = "Company,Price,Change,Change-Value\n" ∧
      (webscrapper w prev).file =
        some ("Company,Price,Change,Change-Value\n" ++
          concatLines ((visitAll w ticker).stocks.map (fun s => encodeRecord s.row))) := by
  refine ⟨exportCSV_eq stocks, header_line, by decide, ?_⟩
  unfold webscrapper
  rw [webscrapperOn_created _ w prev hcreate, exportCSV_eq, header_line]

/-- C4 at the world where every request fails and at a one-record list. -/
theorem C4_header_row_first_witness :
    exportCSV [Stock.mk "Apple Inc." "150.00" "1.2%" "+1.80"] =
        encodeRecord ["Company", "Price", "Change", "Change-Value"] ++
          concatLines ([Stock.mk "Apple Inc." "150.00" "1.2%" "+1.80"].map
            (fun s => encodeRecord s.row)) ∧
      encodeRecord ["Company", "Price", "Change", "Change-Value"] =
        "Company,Price,Change,Change-Value\n" ∧
      exportCSV [] = "Company,Price,Change,Change-Value\n" ∧
      (webscrapper offlineWorld (some "old")).file =
        some ("Company,Price,Change,Change-Value\n" ++
          concatLines ((visitAll offlineWorld ticker).stocks.map (fun s => encodeRecord s.row))) :=
  C4_header_row_first offlineWorld (some "old") [Stock.mk "Apple Inc." "150.00" "1.2%" "+1.80"] rfl

/-- C5: for every list of n collected records the export is the header row
followed by exactly n rows, the i-th row being the company, price, change
and change value of the i-th record; and handling matched elements appends
their records at the end of the collected list in handling order, earlier
records staying in place, as does the whole visit loop. -/
theorem C5_rows_in_collected_order (stocks : List Stock) (s : State) (es : List HTMLElement)
    (w : World) (l : List String) :
    exportCSV stocks =
        concatLines (encodeRecord ["Company", "Price", "Change", "Change-Value"] ::
          (stocks.map Stock.row).map encodeRecord) ∧
      (stocks.map Stock.row).length = stocks.length ∧
      (∀ (i : Nat) (h : i < stocks.length),
        (stocks.map Stock.row)[i]? =
          some [stocks[i].company, stocks[i].price, stocks[i].change, stocks[i].change_value]) ∧
      (es.foldl onHTML s).stocks = s.stocks ++ (es.filter complete).map extract ∧
      (∃ added, (visitFrom w s l).stocks = s.stocks ++ added) := by
  refine ⟨?_, by simp, ?_, ?_, visitFrom_stocks_extend w l s⟩
  · rw [exportCSV_eq, List.map_map]
    rfl
  · intro i h
    simp [Stock.row, h]
  · rw [foldl_onHTML]
    rfl

/-- C6: for every previous content of the file and every pair of consecutive
runs that both create the file, the file after the second run is the header
followed by one row per record the second run collected; it is what the
second run alone would write, whatever the first run fetched and whatever
the file held before. -/
theorem C6_second_run_overwrites (w1 w1b w2 : World) (prev prevb : Option String)
    (h1 : w1.createErr = none) (h1b : w1b.createErr = none) (h2 : w2.createErr = none) :
    (main [w1, w2] prev).file =
        some (concatLines (encodeRecord ["Company", "Price", "Change", "Change-Value"] ::
          ((visitAll w2 ticker).stocks.map Stock.row).map encodeRecord)) ∧
      ((visitAll w2 ticker).stocks.map Stock.row).length = (visitAll w2 ticker).stocks.length ∧
      (main [w1, w2] prev).file = (webscrapper w2 none).file ∧
      (main [w1b, w2] prevb).file = (main [w1, w2] prev).file := by
  have hmain : ∀ (w : World) (p : Option String), w.createErr = none →
      (main [w, w2] p).file = some (exportCSV (visitAll w2 ticker).stocks) := by
    intro w p hw
    rw [main_cons_file w [w2] p hw, main_cons_file w2 [] _ h2]
    rfl
  refine ⟨?_, List.length_map _ _, ?_, ?_⟩
  · rw [hmain w1 prev h1, exportCSV_eq, List.map_map]
    rfl
  · rw [hmain w1 prev h1, webscrapper_created w2 none h2]
  · rw [hmain w1 prev h1, hmain w1b prevb h1b]

/-- C6 at two concrete runs: the first collects the AAPL record among
failures, the second collects nothing. -/
theorem C6_second_run_overwrites_witness :
    (main [scenarioWorld, offlineWorld] (some "stale")).file =
        some (concatLines (encodeRecord ["Company", "Price", "Change", "Change-Value"] ::
          ((visitAll offlineWorld ticker).stocks.map Stock.row).map encodeRecord)) ∧
      ((visitAll offlineWorld ticker).stocks.map Stock.row).length =
        (visitAll offlineWorld ticker).stocks.length ∧
      (main [scenarioWorld, offlineWorld] (some "stale")).file =
        (webscrapper offlineWorld none).file ∧
      (main [bareWorld, offlineWorld] none).file =
        (main [scenarioWorld, offlineWorld] (some "stale")).file :=
  C6_second_run_overwrites scenarioWorld bareWorld offlineWorld (some "stale") none rfl rfl rfl

/-! ## Failures (C7, C8) and the requests of a run (C9) -/

/-- C7: in a run over distinct symbols where the file can be created, a
symbol whose request fails contributes no record and does not abort the run:
every symbol, the later ones included, is still requested in list order (at
the parsed form of its URL), the run returns, and the file is created from
the records of the other symbols; in particular, when every symbol fails,
the file holds only the header row. -/
theorem C7_failed_request_skipped_run_continues (w : World) (pre post : List String)
    (t err : String) (prev : Option String)
    (hnd : (pre ++ t :: post).Nodup)
    (hfail : w.fetch ("https://finance.yahoo.com/quote/" ++ t ++ "/") = Response.failure err)
    (hcreate : w.createErr = none) :
    (visitAll w (pre ++ t :: post)).stocks = (visitAll w (pre ++ post)).stocks ∧
      requestsOf (webscrapperOn (pre ++ t :: post) w prev).trace =
        (pre ++ t :: post).map
          (fun u => parsedURL ("https://finance.yahoo.com/quote/" ++ u ++ "/")) ∧
      (webscrapperOn (pre ++ t :: post) w prev).exit = Exit.returned ∧
      (webscrapperOn (pre ++ t :: post) w prev).file =
        some (exportCSV (visitAll w (pre ++ post)).stocks) ∧
      ((∀ u ∈ pre ++ t :: post, ∃ e,
          w.fetch ("https://finance.yahoo.com/quote/" ++ u ++ "/") = Response.failure e) →
        (webscrapperOn (pre ++ t :: post) w prev).file =
          some "Company,Price,Change,Change-Value\n") := by
  have hpp : (pre ++ post).Nodup := nodup_without_middle pre post t hnd
  have hrec : recordsAt w (quoteURL t) = [] := recordsAt_of_failure w _ err hfail
  have hst : (visitAll w (pre ++ t :: post)).stocks = (visitAll w (pre ++ post)).stocks := by
    rw [visitAll_eq w _ hnd, visitAll_eq w _ hpp]
    simp only [List.flatMap_append, List.flatMap_cons, hrec, List.nil_append]
  refine ⟨hst, requestsOf_webscrapperOn w _ prev hnd, ?_, ?_, ?_⟩
  · rw [webscrapperOn_created _ w prev hcreate]
  · rw [webscrapperOn_created _ w prev hcreate, hst]
  · intro hall
    rw [webscrapperOn_created _ w prev hcreate, visitAll_eq w _ hnd]
    simp only [records_nil_of_all_fail w _ hall]
    decide

/-- C7 at the world where every request of the hardcoded list fails. -/
theorem C7_failed_request_skipped_run_continues_witness :
    (visitAll offlineWorld ticker).stocks = (visitAll offlineWorld ticker.tail).stocks ∧
      requestsOf (webscrapper offlineWorld (some "old")).trace =
        ticker.map (fun u => parsedURL ("https://finance.yahoo.com/quote/" ++ u ++ "/")) ∧
      (webscrapper offlineWorld (some "old")).exit = Exit.returned ∧
      (webscrapper offlineWorld (some "old")).file =
        some (exportCSV (visitAll offlineWorld ticker.tail).stocks) ∧
      (webscrapper offlineWorld (some "old")).file =
        some "Company,Price,Change,Change-Value\n" :=
  have h := C7_failed_request_skipped_run_continues offlineWorld [] ticker.tail "PFE"
    "Get: dial tcp: i/o timeout" (some "old") ticker_nodup rfl rfl
  ⟨h.1, h.2.1, h.2.2.1, h.2.2.2.1, h.2.2.2.2 (fun _ _ => ⟨"Get: dial tcp: i/o timeout", rfl⟩)⟩

/-- C8, as stated, fails: when the file cannot be created the run is fatal
and writes nothing, but the fatal line is the last event of the run and all
45 requests come before it. -/
theorem C8_all_requests_precede_fatal_exit :
    lockedWorld.createErr = some "open stocks.csv: permission denied" ∧
    (webscrapper lockedWorld none).exit = Exit.fatal ∧
    (webscrapper lockedWorld none).file = none ∧
    (webscrapper lockedWorld none).trace.getLast? =
      some (Event.fatalln
        "Failed to create CSV file open stocks.csv: permission denied") ∧
    (requestsOf (webscrapper lockedWorld none).trace.dropLast).length = 45 ∧
    ¬ ((webscrapper lockedWorld none).exit = Exit.fatal ∧
        (webscrapper lockedWorld none).file = none ∧
        requestsOf (webscrapper lockedWorld none).trace = []) := by
  decide

/-- C8, amended: when the output file cannot be created, the run ends in a
fatal error that terminates the process (no later tick runs) and nothing is
written, the file staying as it was; the fatal line comes after the whole
visit loop, in which every symbol of the list has been requested (at the
parsed form of its URL). -/
theorem C8_create_failure_is_fatal_after_visits (w : World) (prev : Option String)
    (err : String) (ticks : List World)
    (hcreate : w.createErr = some err) :
    (webscrapper w prev).exit = Exit.fatal ∧
      (webscrapper w prev).file = prev ∧
      (webscrapper w prev).trace =
        (visitAll w ticker).trace ++ [Event.fatalln ("Failed to create CSV file " ++ err)] ∧
      requestsOf (visitAll w ticker).trace =
        ticker.map (fun t => parsedURL ("https://finance.yahoo.com/quote/" ++ t ++ "/")) ∧
      main (w :: ticks) prev = webscrapper w prev := by
  refine ⟨?_, ?_, ?_, requestsOf_visitAll w ticker ticker_nodup,
    main_cons_fatal w ticks prev err hcreate⟩
  · rw [webscrapper_fatal w prev err hcreate]
  · rw [webscrapper_fatal w prev err hcreate]
  · rw [webscrapper_fatal w prev err hcreate]

/-- C8 amended, at a world with an unwritable directory and an older file. -/
theorem C8_create_failure_is_fatal_after_visits_witness :
    (webscrapper lockedWorld (some "old")).exit = Exit.fatal ∧
      (webscrapper lockedWorld (some "old")).file = some "old" ∧
      (webscrapper lockedWorld (some "old")).trace =
        (visitAll lockedWorld ticker).trace ++
          [Event.fatalln ("Failed to create CSV file " ++ "open stocks.csv: permission denied")] ∧
      requestsOf (visitAll lockedWorld ticker).trace =
        ticker.map (fun t => parsedURL ("https://finance.yahoo.com/quote/" ++ t ++ "/")) ∧
      main (lockedWorld :: [scenarioWorld]) (some "old") = webscrapper lockedWorld (some "old") :=
  C8_create_failure_is_fatal_after_visits lockedWorld (some "old")
    "open stocks.csv: permission denied" [scenarioWorld] rfl

/-- C9, as stated, fails: the target of a request is the parsed form of the
concatenated string, in which a space is written %20 and a circumflex %5E;
so the requests of a run are not the plain concatenations. -/
theorem C9_targets_are_percent_escaped :
    ticker[31]? = some "Bitcoin USD" ∧
    (requestsOf (webscrapper bareWorld none).trace)[31]? =
      some "https://finance.yahoo.com/quote/Bitcoin%20USD/" ∧
    ticker[9]? = some "^VIX" ∧
    (requestsOf (webscrapper bareWorld none).trace)[9]? =
      some "https://finance.yahoo.com/quote/%5EVIX/" ∧
    ¬ (requestsOf (webscrapper bareWorld none).trace =
        ticker.map (fun t => "https://finance.yahoo.com/quote/" ++ t ++ "/")) := by
  decide

/-- C9, amended: a run makes one request per symbol of the hardcoded list, in
list order; for the symbol t the target is the parsed form of the string
made of the base path, t and a slash by plain concatenation.  That form is
the concatenation itself for 34 symbols and has every space written %20 and
the circumflex written %5E for the other 11; the list holds 45 symbols. -/
theorem C9_one_request_per_symbol_at_parsed_target (w : World) (prev : Option String) :
    requestsOf (webscrapper w prev).trace =
        ticker.map (fun t => parsedURL ("https://finance.yahoo.com/quote/" ++ t ++ "/")) ∧
      (requestsOf (webscrapper w prev).trace).length = 45 ∧
      ticker.length = 45 ∧
      ticker.map (fun t => parsedURL ("https://finance.yahoo.com/quote/" ++ t ++ "/")) =
        [ "https://finance.yahoo.com/quote/PFE/", "https://finance.yahoo.com/quote/ALTM/",
          "https://finance.yahoo.com/quote/NQ=F/", "https://finance.yahoo.com/quote/GEV/",
          "https://finance.yahoo.com/quote/1211.HK/", "https://finance.yahoo.com/quote/ES=F/",
          "https://finance.yahoo.com/quote/MSTR/", "https://finance.yahoo.com/quote/BTC-USD/",
          "https://finance.yahoo.com/quote/ASML/", "https://finance.yahoo.com/quote/%5EVIX/",
          "https://finance.yahoo.com/quote/EH/", "https://finance.yahoo.com/quote/LGMK/",
          "https://finance.yahoo.com/quote/AMD/", "https://finance.yahoo.com/quote/LAC/",
          "https://finance.yahoo.com/quote/LYFT/", "https://finance.yahoo.com/quote/RIO/",
          "https://finance.yahoo.com/quote/IBRX/", "https://finance.yahoo.com/quote/BENF/",
          "https://finance.yahoo.com/quote/AAPL/", "https://finance.yahoo.com/quote/OKLO/",
          "https://finance.yahoo.com/quote/ASML.AS/", "https://finance.yahoo.com/quote/PEP/",
          "https://finance.yahoo.com/quote/SHOP/", "https://finance.yahoo.com/quote/IVZ/",
          "https://finance.yahoo.com/quote/ADTX/", "https://finance.yahoo.com/quote/CLSK/",
          "https://finance.yahoo.com/quote/TIGR/", "https://finance.yahoo.com/quote/RACE/",
          "https://finance.yahoo.com/quote/WIMI/", "https://finance.yahoo.com/quote/GBP/USD/",
          "https://finance.yahoo.com/quote/USD/JPY/",
          "https://finance.yahoo.com/quote/Bitcoin%20USD/",
          "https://finance.yahoo.com/quote/XRP%20USD/",
          "https://finance.yahoo.com/quote/FTSE%20100/",
          "https://finance.yahoo.com/quote/Nikkei%20225/",
          "https://finance.yahoo.com/quote/Silver/", "https://finance.yahoo.com/quote/Gold/",
          "https://finance.yahoo.com/quote/VIX/", "https://finance.yahoo.com/quote/10-Yr%20Bond/",
          "https://finance.yahoo.com/quote/EUR/USD/",
          "https://finance.yahoo.com/quote/Crude%20Oil/",
          "https://finance.yahoo.com/quote/Russell%202000%20Futures/",
          "https://finance.yahoo.com/quote/Nasdaq%20Futures/",
          "https://finance.yahoo.com/quote/Dow%20Futures/",
          "https://finance.yahoo.com/quote/S&P%20Futures/" ] ∧
      ticker.filter (fun t =>
          decide (parsedURL ("https://finance.yahoo.com/quote/" ++ t ++ "/") ≠
            "https://finance.yahoo.com/quote/" ++ t ++ "/")) =
        [ "^VIX", "Bitcoin USD", "XRP USD", "FTSE 100", "Nikkei 225", "10-Yr Bond",
          "Crude Oil", "Russell 2000 Futures", "Nasdaq Futures", "Dow Futures",
          "S&P Futures" ] := by
  have h := requestsOf_webscrapperOn w ticker prev ticker_nodup
  refine ⟨h, ?_, by decide, by decide, by decide⟩
  unfold webscrapper
  rw [h, List.length_map]
  decide

end WebScrapper
